import Mathlib

/-!
Verification development for the WhatsApp session-persistence server
(`src/index.js`).  The subsystem under study serializes the local
`.wwebjs_auth` directory tree into a base64 path-to-content blob
(`readDirRecursive`), restores it (`writeFilesFromMap`), persists it in a
remote row store (`saveSessionFolderToDB` / `loadSessionFolderFromDB`),
mirrors the connection lifecycle into a status row (the `client.on`
handlers), and gates outbound sends on the `isReady` flag
(`app.post("/send-message")`).

Modelling conventions:
* Filesystem paths are lists of components (`Path`); the JS code builds
  slash-separated strings, which `path.join` splits back into components.
* The filesystem is a partial map `Path → Option (List Nat)` from absolute
  component paths to file bytes; `fsp.writeFile` is a point update
  (`mkdir recursive` always succeeds, so directory creation is implicit).
* `path.join(AUTH_ROOT, rel)` is `resolveComps`: it appends the relative
  components onto the root one at a time, with Node's normalization of
  `"."`, `""` and `".."` segments (`".."` pops one component and is clamped
  at the filesystem root, as `path.join` does for an absolute base).
* The global `AUTH_ROOT` constant is passed explicitly as a `root` argument.
* JS values that flow into `writeFilesFromMap` are `JSValue`: `null`
  or `undefined` (`nullish`), a non-object primitive (with its
  truthiness), or an object, i.e. a map from relative paths to base64
  strings.
* `Buffer.toString("base64")` / `Buffer.from(s, "base64")` are
  `encodeBase64` / `decodeBase64` over byte lists (a byte is a `Nat`
  below 256).
-/

namespace WhatsappServer

/-- A filesystem path as its list of slash-separated components. -/
abbrev Path := List String

/-- The local filesystem: a partial map from absolute paths to file bytes. -/
abbrev FS := Path → Option (List Nat)

/-- `fsp.writeFile(p, v)`: point update of the filesystem. -/
def fsWrite (fs : FS) (p : Path) (v : List Nat) : FS :=
  fun q => if q = p then some v else fs q

/-- One step of Node `path.join` normalization: `""` and `"."` are dropped,
`".."` pops the last component (clamped at the root, as for an absolute
base path), and any real name is appended. -/
def resolve1 (stack : Path) (c : String) : Path :=
  if c = "" then stack
  else if c = "." then stack
  else if c = ".." then stack.dropLast
  else stack ++ [c]

/-- `path.join(base, rel)` over component lists (`base` absolute). -/
def resolveComps (base : Path) : List String → Path
  | [] => base
  | c :: rest => resolveComps (resolve1 base c) rest

/-- `isUnder root p` holds when `p` lies inside the directory `root`
(i.e. `root` is a leading run of `p`'s components). -/
def isUnder : Path → Path → Bool
  | [], _ => true
  | _ :: _, [] => false
  | r :: rs, q :: qs => r == q && isUnder rs qs

/-- The base64 alphabet used by `Buffer.toString("base64")`. -/
def b64Alphabet : List Char :=
  "ABCDEFGHIJKLMNOPQRSTUVWXYZabcdefghijklmnopqrstuvwxyz0123456789+/".toList

/-- Character for a 6-bit group (only used on inputs below 64). -/
def sextetChar (n : Nat) : Char := b64Alphabet.getD n 'A'

/-- 6-bit group of a base64 character. -/
def charSextet (c : Char) : Nat := b64Alphabet.indexOf c

/-- `buf.toString("base64")`: standard base64 with `=` padding, over the
byte list of the buffer. -/
def encodeBase64 : List Nat → List Char
  | [] => []
  | [b0] =>
      [sextetChar (b0 / 4), sextetChar (b0 % 4 * 16), '=', '=']
  | [b0, b1] =>
      [sextetChar (b0 / 4), sextetChar (b0 % 4 * 16 + b1 / 16),
       sextetChar (b1 % 16 * 4), '=']
  | b0 :: b1 :: b2 :: rest =>
      sextetChar (b0 / 4) :: sextetChar (b0 % 4 * 16 + b1 / 16) ::
      sextetChar (b1 % 16 * 4 + b2 / 64) :: sextetChar (b2 % 64) ::
      encodeBase64 rest

/-- `Buffer.from(s, "base64")`: inverse of `encodeBase64` on well-formed
base64 text (which is all the session code ever feeds it). -/
def decodeBase64 : List Char → List Nat
  | c0 :: c1 :: c2 :: c3 :: rest =>
      if c2 = '=' then
        [charSextet c0 * 4 + charSextet c1 / 16]
      else if c3 = '=' then
        [charSextet c0 * 4 + charSextet c1 / 16,
         charSextet c1 % 16 * 16 + charSextet c2 / 4]
      else
        (charSextet c0 * 4 + charSextet c1 / 16) ::
        (charSextet c1 % 16 * 16 + charSextet c2 / 4) ::
        (charSextet c2 % 4 * 64 + charSextet c3) ::
        decodeBase64 rest
  | _ => []

/-- JS values that reach `writeFilesFromMap`: `null`/`undefined`, a
non-object primitive (carrying only its truthiness, which is all the code
ever observes of it), or an object mapping relative paths to base64
strings. -/
inductive JSValue where
  | nullish : JSValue
  | primitive (truthy : Bool) : JSValue
  | obj (entries : List (Path × String)) : JSValue
deriving DecidableEq

/-- A directory tree of regular files: what `fsp.readdir(..., withFileTypes)`
walks over. -/
inductive FSTree where
  | file (content : List Nat) : FSTree
  | dir (entries : List (String × FSTree)) : FSTree

/-- Names that `readdir` can actually return as directory entries
(never empty, `"."` or `".."`). -/
def validName (s : String) : Bool :=
  !(s == "" || s == "." || s == "..")

/-- The recursive walk inside `readDirRecursive`, over the entry list of a
directory: files are recorded under their path relative to `AUTH_ROOT`
(here the accumulated component list `pre`) with base64-encoded content;
directories are descended into but never recorded. -/
def readEntries (pre : Path) : List (String × FSTree) → List (Path × String)
  | [] => []
  | (name, .file c) :: rest =>
      (pre ++ [name], (⟨encodeBase64 c⟩ : String)) :: readEntries pre rest
  | (name, .dir ents) :: rest =>
      readEntries (pre ++ [name]) ents ++ readEntries pre rest

/-- `readDirRecursive(AUTH_ROOT)`: `none` models a missing root directory
(`readdir` throws, the `catch` swallows it and `{}` is returned); a plain
file at the root likewise yields `{}` via the `catch`. -/
def readDirRecursive : Option FSTree → List (Path × String)
  | some (.dir ents) => readEntries [] ents
  | _ => []

/-- Well-formedness of a real directory tree: entry names are `readdir`
names and unique within each directory, and file contents are bytes. -/
def wfEntries : List (String × FSTree) → Bool
  | [] => true
  | (name, .file c) :: rest =>
      validName name && rest.all (fun e => !(e.1 == name)) &&
      c.all (fun b => decide (b < 256)) && wfEntries rest
  | (name, .dir ents) :: rest =>
      validName name && rest.all (fun e => !(e.1 == name)) &&
      wfEntries ents && wfEntries rest

/-- Content of the file at relative path `p` in a directory tree, if any. -/
def lookupEntries : List (String × FSTree) → Path → Option (List Nat)
  | [], _ => none
  | _ :: _, [] => none
  | (name, .file c) :: rest, a :: p =>
      if name = a then (if p = [] then some c else none)
      else lookupEntries rest (a :: p)
  | (name, .dir ents) :: rest, a :: p =>
      if name = a then lookupEntries ents p
      else lookupEntries rest (a :: p)

/-- The `for (const relPath of Object.keys(fileMap))` loop of
`writeFilesFromMap`: each entry is written at `path.join(root, relPath)`
with its base64-decoded content, in key order. -/
def writeFold (root : Path) : List (Path × String) → FS → FS
  | [], fs => fs
  | (k, v) :: rest, fs =>
      writeFold root rest (fsWrite fs (resolveComps root k) (decodeBase64 v.toList))

/-- `writeFilesFromMap(fileMap)`: returns immediately unless `fileMap` is a
truthy object, then writes every entry under `root` (= `AUTH_ROOT`). -/
def writeFilesFromMap (root : Path) (fileMap : JSValue) (fs : FS) : FS :=
  match fileMap with
  | .obj m => writeFold root m fs
  | _ => fs

/-- The same loop under a filesystem-failure oracle `fails`: writing at an
absolute path `p` with `fails p = true` throws, which in the JS code
propagates out of `writeFilesFromMap` (there is no per-file catch).  The
Boolean result records whether the loop ran to completion (`true`) or an
exception escaped (`false`); the returned filesystem keeps the writes
made before the failure. -/
def writeFoldE (root : Path) (fails : Path → Bool) :
    List (Path × String) → FS → FS × Bool
  | [], fs => (fs, true)
  | (k, v) :: rest, fs =>
      if fails (resolveComps root k) then (fs, false)
      else writeFoldE root fails rest
        (fsWrite fs (resolveComps root k) (decodeBase64 v.toList))

/-- `writeFilesFromMap` under the failure oracle. -/
def writeFilesFromMapE (root : Path) (fails : Path → Bool) (fileMap : JSValue)
    (fs : FS) : FS × Bool :=
  match fileMap with
  | .obj m => writeFoldE root fails m fs
  | _ => (fs, true)

/-- A supabase error object, as far as the code inspects it. -/
structure SupaError where
  code : String
deriving DecidableEq

/-- The `{ data, error }` pair returned by
`supabase.from("whatsapp_auth").select("folder").eq("id", 1).single()`;
`data`, when present, is the row's `folder` value. -/
structure QueryResult where
  data : Option JSValue
  error : Option SupaError

/-- Observable outcome of `loadSessionFolderFromDB`: a restore was
performed, the record was absent (normal first run), or a genuine fetch
error was logged (and the function returned without restoring — it never
throws to its caller). -/
inductive LoadResult where
  | restored : LoadResult
  | absent : LoadResult
  | fetchError : LoadResult
deriving DecidableEq

/-- JS truthiness of the modelled values (`data?.folder` check). -/
def jsTruthy : JSValue → Bool
  | .nullish => false
  | .primitive t => t
  | .obj _ => true

/-- The `data?.folder` branch of `loadSessionFolderFromDB`. -/
def loadData (root : Path) (d : Option JSValue) (fs : FS) : FS × LoadResult :=
  match d with
  | none => (fs, .absent)
  | some folder =>
      if jsTruthy folder then (writeFilesFromMap root folder fs, .restored)
      else (fs, .absent)

/-- `loadSessionFolderFromDB()`: an error with code other than `PGRST116`
(the PostgREST "no rows" code of `.single()`) is logged and the function
returns with the local state untouched; a `PGRST116` error falls through
to the `data?.folder` check, exactly like a missing error. -/
def loadSessionFolderFromDB (root : Path) (r : QueryResult) (fs : FS) :
    FS × LoadResult :=
  match r.error with
  | some e =>
      if e.code = "PGRST116" then loadData root r.data fs
      else (fs, .fetchError)
  | none => loadData root r.data fs

/-- The persisted session blob: the `folder` column of the single
`whatsapp_auth` row. -/
abbrev Blob := List (Path × String)

/-- `saveSessionFolderToDB()` acting on the stored row (`none` = no row
yet): the fresh `fileMap` is read from the tree at `AUTH_ROOT`, and if it
has no keys the function returns without touching the store; otherwise the
row is upserted with the full map. -/
def saveSessionFolderToDB (tree : Option FSTree) (store : Option Blob) :
    Option Blob :=
  let fileMap := readDirRecursive tree
  if fileMap.isEmpty then store else some fileMap

/-- What `.single()` on `whatsapp_auth` returns for a given store state:
no row gives a `PGRST116` error with null data, a stored blob comes back
as the row's `folder` object. -/
def storeQuery : Option Blob → QueryResult
  | none => ⟨none, some ⟨"PGRST116"⟩⟩
  | some b => ⟨some (.obj b), none⟩

/-- Protocol lifecycle events emitted by the whatsapp-web.js client. -/
inductive WEvent where
  | qr (code : String) : WEvent
  | authenticated : WEvent
  | ready : WEvent
  | disconnected (reason : String) : WEvent

/-- The `whatsapp_sessions` row mirrored by the lifecycle handlers (the
`updated_at` timestamp column is not modelled: no claim concerns it). -/
structure StatusRecord where
  qr_code : Option String
  status : String
deriving DecidableEq

/-- The mutable state the lifecycle handlers touch: the `isReady` and
`currentQR` globals and the remote status row (`none` = row not created
yet; `update(...).eq("id", 1)` on a missing row changes nothing). -/
structure SysState where
  isReady : Bool
  currentQR : Option String
  statusRow : Option StatusRecord
deriving DecidableEq

/-- Initial state: `isReady = false`, `currentQR = null`, no status row. -/
def initState : SysState := ⟨false, none, none⟩

/-- The four `client.on` lifecycle handlers: `qr` upserts
`{qr_code, status: waiting_scan}`, `authenticated` upserts
`{qr_code: null, status: connected}`, `ready` and `disconnected` update
only the `status` column (leaving `qr_code` as it was) and set or clear
`isReady`. -/
def handleEvent (s : SysState) : WEvent → SysState
  | .qr code =>
      { s with currentQR := some code,
               statusRow := some ⟨some code, "waiting_scan"⟩ }
  | .authenticated =>
      { s with currentQR := none,
               statusRow := some ⟨none, "connected"⟩ }
  | .ready =>
      { s with isReady := true,
               statusRow :=
                 match s.statusRow with
                 | some r => some { r with status := "ready" }
                 | none => none }
  | .disconnected _ =>
      { s with isReady := false,
               statusRow :=
                 match s.statusRow with
                 | some r => some { r with status := "disconnected" }
                 | none => none }

/-- Run a sequence of lifecycle events. -/
def runEvents (s : SysState) (evs : List WEvent) : SysState :=
  evs.foldl handleEvent s

/-- HTTP responses of the `/send-message` handler: `res.json({success:true})`
or `res.status(code).json({error})`. -/
inductive HttpResponse where
  | success : HttpResponse
  | failure (status : Nat) (error : String) : HttpResponse
deriving DecidableEq

/-- Behaviour of `client.sendMessage` on this call: resolves, or rejects
with an error message. -/
inductive SendResult where
  | delivered : SendResult
  | threw (msg : String) : SendResult

/-- Whether `pat` occurs at the start of `l`. -/
def startsWithRun : List Char → List Char → Bool
  | [], _ => true
  | _ :: _, [] => false
  | p :: ps, c :: cs => p == c && startsWithRun ps cs

/-- Whether `pat` occurs anywhere in `l` (JS `String.includes`). -/
def hasRun (pat : List Char) : List Char → Bool
  | [] => pat.isEmpty
  | c :: rest => startsWithRun pat (c :: rest) || hasRun pat rest

/-- `to.includes("@c.us")`. -/
def containsCUs (s : String) : Bool :=
  hasRun "@c.us".toList s.toList

/-- `const chatId = to.includes("@c.us") ? to : to + "@c.us"`. -/
def normalizeChatId (toField : String) : String :=
  if containsCUs toField then toField else toField ++ "@c.us"

/-- The `POST /send-message` handler.  `to = none` models a request body
whose `to` field is not a string: evaluating `to.includes` then throws a
TypeError inside the `try`, which the `catch` turns into a 500 JSON error.
The second component records the `client.sendMessage(chatId, message)`
call, if one was made. -/
def sendMessageHandler (isReady : Bool) (toField : Option String)
    (message : String) (send : SendResult) :
    HttpResponse × Option (String × String) :=
  if isReady then
    match toField with
    | none =>
        (.failure 500 "Cannot read properties of undefined (reading includes)",
         none)
    | some t =>
        match send with
        | .delivered => (.success, some (normalizeChatId t, message))
        | .threw m => (.failure 500 m, some (normalizeChatId t, message))
  else (.failure 503 "WhatsApp não conectado", none)

/-- A concrete well-formed session tree used by the round-trip witness. -/
def demoEnts : List (String × FSTree) :=
  [("session-default", .dir
      [("Default", .dir [("Cookies", .file [0, 1, 254, 255])]),
       ("meta.json", .file [104, 105])])]

theorem charSextet_sextetChar : ∀ s : Nat, s < 64 → charSextet (sextetChar s) = s := by
  decide

theorem sextetChar_ne_pad : ∀ s : Nat, s < 64 → sextetChar s ≠ '=' := by
  decide

/-- Decoding inverts encoding on byte lists. -/
theorem decode_encode (bs : List Nat) :
    (∀ b ∈ bs, b < 256) → decodeBase64 (encodeBase64 bs) = bs :=
  match bs with
  | [] => fun _ => rfl
  | [b0] => fun h => by
      have h0 : b0 < 256 := h b0 (by simp)
      have e0 := charSextet_sextetChar (b0 / 4) (by omega)
      have e1 := charSextet_sextetChar (b0 % 4 * 16) (by omega)
      simp [encodeBase64, decodeBase64, e0, e1]
      omega
  | [b0, b1] => fun h => by
      have h0 : b0 < 256 := h b0 (by simp)
      have h1 : b1 < 256 := h b1 (by simp)
      have n2 := sextetChar_ne_pad (b1 % 16 * 4) (by omega)
      have e0 := charSextet_sextetChar (b0 / 4) (by omega)
      have e1 := charSextet_sextetChar (b0 % 4 * 16 + b1 / 16) (by omega)
      have e2 := charSextet_sextetChar (b1 % 16 * 4) (by omega)
      simp [encodeBase64, decodeBase64, n2, e0, e1, e2]
      omega
  | b0 :: b1 :: b2 :: rest => fun h => by
      have h0 : b0 < 256 := h b0 (by simp)
      have h1 : b1 < 256 := h b1 (by simp)
      have h2 : b2 < 256 := h b2 (by simp)
      have ih := decode_encode rest (fun b hb => h b (by simp [hb]))
      have n2 := sextetChar_ne_pad (b1 % 16 * 4 + b2 / 64) (by omega)
      have n3 := sextetChar_ne_pad (b2 % 64) (by omega)
      have e0 := charSextet_sextetChar (b0 / 4) (by omega)
      have e1 := charSextet_sextetChar (b0 % 4 * 16 + b1 / 16) (by omega)
      have e2 := charSextet_sextetChar (b1 % 16 * 4 + b2 / 64) (by omega)
      have e3 := charSextet_sextetChar (b2 % 64) (by omega)
      simp [encodeBase64, decodeBase64, n2, n3, e0, e1, e2, e3, ih]
      omega

theorem validName_spec (s : String) (h : validName s = true) :
    s ≠ "" ∧ s ≠ "." ∧ s ≠ ".." := by
  simpa [validName, and_assoc] using h

/-- Joining a relative path of real `readdir` names onto a base is plain
append: no normalization fires. -/
theorem resolveComps_valid (p : Path) (base : Path)
    (h : p.all validName = true) : resolveComps base p = base ++ p :=
  match p with
  | [] => by simp [resolveComps]
  | c :: rest => by
      have hc : validName c = true ∧ rest.all validName = true := by
        simpa [List.all_cons] using h
      obtain ⟨h1, h2, h3⟩ := validName_spec c hc.1
      have hstep : resolve1 base c = base ++ [c] := by
        simp [resolve1, h1, h2, h3]
      show resolveComps (resolve1 base c) rest = base ++ c :: rest
      rw [hstep, resolveComps_valid rest (base ++ [c]) hc.2]
      simp

theorem writeFold_append (root : Path) (A B : Blob) (fs : FS) :
    writeFold root (A ++ B) fs = writeFold root B (writeFold root A fs) :=
  match A with
  | [] => rfl
  | (k, v) :: A1 =>
      writeFold_append root A1 B
        (fsWrite fs (resolveComps root k) (decodeBase64 v.toList))

/-- The write loop does not touch any path that no blob entry resolves to. -/
theorem writeFold_frame (root : Path) (m : Blob) (fs : FS) (q : Path)
    (h : ∀ e ∈ m, resolveComps root e.1 ≠ q) :
    writeFold root m fs q = fs q :=
  match m with
  | [] => rfl
  | (k, v) :: rest => by
      have hk : resolveComps root k ≠ q := h (k, v) (by simp)
      have hq : q ≠ resolveComps root k := fun hh => hk hh.symm
      have ih := writeFold_frame root rest
        (fsWrite fs (resolveComps root k) (decodeBase64 v.toList)) q
        (fun e he => h e (by simp [he]))
      show writeFold root rest
        (fsWrite fs (resolveComps root k) (decodeBase64 v.toList)) q = fs q
      rw [ih]
      simp [fsWrite, hq]

theorem key_head_eq {pre : Path} {n name : String} {qq p' : Path}
    (h : pre ++ n :: qq = pre ++ name :: p') : n = name := by
  have h1 := List.append_cancel_left h
  injection h1

/-- Every key produced by the walk extends `pre` by the name of one of the
directory's entries. -/
theorem readEntries_shape (pre : Path) (ents : List (String × FSTree)) :
    ∀ kv ∈ readEntries pre ents,
      ∃ n qq, kv.1 = pre ++ n :: qq ∧ ∃ t, (n, t) ∈ ents :=
  match ents with
  | [] => by simp [readEntries]
  | (name, .file c) :: rest => by
      intro kv hkv
      simp only [readEntries, List.mem_cons] at hkv
      rcases hkv with h | h
      · exact ⟨name, [], by rw [h], .file c, by simp⟩
      · obtain ⟨n, qq, h1, t, h2⟩ := readEntries_shape pre rest kv h
        exact ⟨n, qq, h1, t, List.mem_cons_of_mem _ h2⟩
  | (name, .dir ents0) :: rest => by
      intro kv hkv
      simp only [readEntries] at hkv
      rcases List.mem_append.mp hkv with h | h
      · obtain ⟨n, qq, h1, t, h2⟩ := readEntries_shape (pre ++ [name]) ents0 kv h
        exact ⟨name, n :: qq, by simp [h1], .dir ents0, by simp⟩
      · obtain ⟨n, qq, h1, t, h2⟩ := readEntries_shape pre rest kv h
        exact ⟨n, qq, h1, t, List.mem_cons_of_mem _ h2⟩

/-- Every key produced by the walk of a well-formed tree is made of real
`readdir` names (assuming the accumulated prefix is). -/
theorem readEntries_valid (pre : Path) (ents : List (String × FSTree))
    (hwf : wfEntries ents = true) (hpre : pre.all validName = true) :
    ∀ kv ∈ readEntries pre ents, kv.1.all validName = true :=
  match ents with
  | [] => by simp [readEntries]
  | (name, .file c) :: rest => by
      simp only [wfEntries, Bool.and_eq_true] at hwf
      obtain ⟨⟨⟨hname, hnd⟩, hbytes⟩, hrest⟩ := hwf
      intro kv hkv
      simp only [readEntries, List.mem_cons] at hkv
      rcases hkv with h | h
      · rw [h]
        simp [List.all_append, hpre, hname]
      · exact readEntries_valid pre rest hrest hpre kv h
  | (name, .dir ents0) :: rest => by
      simp only [wfEntries, Bool.and_eq_true] at hwf
      obtain ⟨⟨⟨hname, hnd⟩, hents⟩, hrest⟩ := hwf
      have hpre2 : (pre ++ [name]).all validName = true := by
        simp [List.all_append, hpre, hname]
      intro kv hkv
      simp only [readEntries] at hkv
      rcases List.mem_append.mp hkv with h | h
      · exact readEntries_valid (pre ++ [name]) ents0 hents hpre2 kv h
      · exact readEntries_valid pre rest hrest hpre kv h

/-- File contents of a well-formed tree are bytes. -/
theorem lookupEntries_bytes (ents : List (String × FSTree)) (p : Path)
    (c : List Nat) (hwf : wfEntries ents = true)
    (hl : lookupEntries ents p = some c) : ∀ b ∈ c, b < 256 :=
  match ents, p with
  | [], _ => by simp [lookupEntries] at hl
  | (_, _) :: _, [] => by simp [lookupEntries] at hl
  | (name, .file c0) :: rest, a :: p' => by
      simp only [wfEntries, Bool.and_eq_true] at hwf
      obtain ⟨⟨⟨hname, hnd⟩, hbytes⟩, hrest⟩ := hwf
      simp only [lookupEntries] at hl
      by_cases hna : name = a
      · rw [if_pos hna] at hl
        by_cases hp : p' = []
        · rw [if_pos hp] at hl
          have hc : c0 = c := by simpa using hl
          subst hc
          intro b hb
          simpa using List.all_eq_true.mp hbytes b hb
        · rw [if_neg hp] at hl
          exact absurd hl (by simp)
      · rw [if_neg hna] at hl
        exact lookupEntries_bytes rest (a :: p') c hrest hl
  | (name, .dir ents0) :: rest, a :: p' => by
      simp only [wfEntries, Bool.and_eq_true] at hwf
      obtain ⟨⟨⟨hname, hnd⟩, hents⟩, hrest⟩ := hwf
      simp only [lookupEntries] at hl
      by_cases hna : name = a
      · rw [if_pos hna] at hl
        exact lookupEntries_bytes ents0 p' c hents hl
      · rw [if_neg hna] at hl
        exact lookupEntries_bytes rest (a :: p') c hrest hl

/-- Core of the round trip: decoding the encoded blob plants, at
`root ++ (pre ++ p)`, the decoded re-encoding of the file found at `p`
in the (well-formed) tree, whatever the starting filesystem. -/
theorem writeFold_readEntries (root : Path) (ents : List (String × FSTree))
    (pre p : Path) (c : List Nat) (fs : FS) (hwf : wfEntries ents = true)
    (hpre : pre.all validName = true) (hl : lookupEntries ents p = some c) :
    writeFold root (readEntries pre ents) fs (root ++ (pre ++ p))
      = some (decodeBase64 (encodeBase64 c)) :=
  match ents, p with
  | [], _ => by simp [lookupEntries] at hl
  | (_, _) :: _, [] => by simp [lookupEntries] at hl
  | (name, .file c0) :: rest, a :: p' => by
      simp only [wfEntries, Bool.and_eq_true] at hwf
      obtain ⟨⟨⟨hname, hnd⟩, hbytes⟩, hrest⟩ := hwf
      have hkey : (pre ++ [name]).all validName = true := by
        simp [List.all_append, hpre, hname]
      have hres : resolveComps root (pre ++ [name]) = root ++ (pre ++ [name]) :=
        resolveComps_valid _ _ hkey
      simp only [lookupEntries] at hl
      have hre : readEntries pre ((name, FSTree.file c0) :: rest)
          = (pre ++ [name], (⟨encodeBase64 c0⟩ : String)) :: readEntries pre rest := by
        simp [readEntries]
      rw [hre]
      by_cases hna : name = a
      · subst hna
        rw [if_pos rfl] at hl
        by_cases hp : p' = []
        · subst hp
          have hc : c0 = c := by simpa using hl
          subst hc
          have hframe : ∀ e ∈ readEntries pre rest,
              resolveComps root e.1 ≠ root ++ (pre ++ [name]) := by
            intro e he hEq
            obtain ⟨n, qq, he1, t, ht⟩ := readEntries_shape pre rest e he
            have hv := readEntries_valid pre rest hrest hpre e he
            rw [resolveComps_valid _ _ hv] at hEq
            have h2 : e.1 = pre ++ name :: ([] : Path) := by simpa using hEq
            rw [he1] at h2
            have h3 : n = name := key_head_eq h2
            have h4 : n ≠ name := by
              simpa using List.all_eq_true.mp hnd (n, t) ht
            exact h4 h3
          show writeFold root (readEntries pre rest)
              (fsWrite fs (resolveComps root (pre ++ [name]))
                (decodeBase64 (encodeBase64 c0)))
              (root ++ (pre ++ [name])) = some (decodeBase64 (encodeBase64 c0))
          rw [writeFold_frame root _ _ _ hframe, hres]
          simp [fsWrite]
        · rw [if_neg hp] at hl
          exact absurd hl (by simp)
      · rw [if_neg hna] at hl
        show writeFold root (readEntries pre rest)
            (fsWrite fs (resolveComps root (pre ++ [name]))
              (decodeBase64 (encodeBase64 c0)))
            (root ++ (pre ++ a :: p')) = some (decodeBase64 (encodeBase64 c))
        exact writeFold_readEntries root rest pre (a :: p') c _ hrest hpre hl
  | (name, .dir ents0) :: rest, a :: p' => by
      simp only [wfEntries, Bool.and_eq_true] at hwf
      obtain ⟨⟨⟨hname, hnd⟩, hents⟩, hrest⟩ := hwf
      have hpre2 : (pre ++ [name]).all validName = true := by
        simp [List.all_append, hpre, hname]
      simp only [lookupEntries] at hl
      have hre : readEntries pre ((name, .dir ents0) :: rest)
          = readEntries (pre ++ [name]) ents0 ++ readEntries pre rest := by
        simp [readEntries]
      rw [hre, writeFold_append]
      by_cases hna : name = a
      · subst hna
        rw [if_pos rfl] at hl
        have hframe : ∀ e ∈ readEntries pre rest,
            resolveComps root e.1 ≠ root ++ (pre ++ name :: p') := by
          intro e he hEq
          obtain ⟨n, qq, he1, t, ht⟩ := readEntries_shape pre rest e he
          have hv := readEntries_valid pre rest hrest hpre e he
          rw [resolveComps_valid _ _ hv] at hEq
          have h2 : e.1 = pre ++ name :: p' := by simpa using hEq
          rw [he1] at h2
          have h3 : n = name := key_head_eq h2
          have h4 : n ≠ name := by
            simpa using List.all_eq_true.mp hnd (n, t) ht
          exact h4 h3
        rw [writeFold_frame root _ _ _ hframe]
        have ih := writeFold_readEntries root ents0 (pre ++ [name]) p' c fs
          hents hpre2 hl
        simpa using ih
      · rw [if_neg hna] at hl
        exact writeFold_readEntries root rest pre (a :: p') c
          (writeFold root (readEntries (pre ++ [name]) ents0) fs) hrest hpre hl

/-- Claim C1 (refuted; evaluation at the failing input): `writeFilesFromMap`
joins blob keys onto the session root with no traversal check, so the blob
`{"../evil.txt": "aGk="}` decoded against root `/home/app/.wwebjs_auth`
writes the decoded bytes of `"aGk="` (the text `hi`) at
`/home/app/evil.txt`, a path that is not inside the root — contradicting
the claim that every written path resolves inside the root. -/
theorem path_traversal_escapes_root :
    (writeFilesFromMap ["home", "app", ".wwebjs_auth"]
        (.obj [(["..", "evil.txt"], "aGk=")]) (fun _ => none))
      ["home", "app", "evil.txt"] = some [104, 105]
    ∧ isUnder ["home", "app", ".wwebjs_auth"] ["home", "app", "evil.txt"]
        = false := by
  constructor
  · decide
  · decide

/-- Claim C2: for every well-formed directory tree of regular files at the
session root, decoding (`writeFilesFromMap`) the blob produced by encoding
it (`readDirRecursive`) reproduces, over any starting filesystem, the
byte-identical content of every file of the tree at the same relative path
under the root. -/
theorem encode_decode_roundtrip (root : Path) (ents : List (String × FSTree))
    (fs : FS) (p : Path) (c : List Nat) (hwf : wfEntries ents = true)
    (hl : lookupEntries ents p = some c) :
    writeFilesFromMap root (.obj (readDirRecursive (some (.dir ents)))) fs
      (root ++ p) = some c := by
  have hmain := writeFold_readEntries root ents [] p c fs hwf (by simp) hl
  have hb := lookupEntries_bytes ents p c hwf hl
  have hrd : readDirRecursive (some (.dir ents)) = readEntries [] ents := by
    simp [readDirRecursive]
  show writeFold root (readDirRecursive (some (.dir ents))) fs (root ++ p)
      = some c
  rw [hrd]
  simpa [decode_encode c hb] using hmain

/-- Witness for C2 at a concrete two-level session tree. -/
theorem encode_decode_roundtrip_witness :
    wfEntries demoEnts = true
    ∧ lookupEntries demoEnts ["session-default", "Default", "Cookies"]
        = some [0, 1, 254, 255]
    ∧ writeFilesFromMap ["srv", ".wwebjs_auth"]
        (.obj (readDirRecursive (some (.dir demoEnts)))) (fun _ => none)
        (["srv", ".wwebjs_auth"] ++ ["session-default", "Default", "Cookies"])
        = some [0, 1, 254, 255] :=
  ⟨by simp [demoEnts, wfEntries, validName],
   by simp [demoEnts, lookupEntries],
   encode_decode_roundtrip ["srv", ".wwebjs_auth"] demoEnts (fun _ => none)
     ["session-default", "Default", "Cookies"] [0, 1, 254, 255]
     (by simp [demoEnts, wfEntries, validName])
     (by simp [demoEnts, lookupEntries])⟩

/-- Claim C3: when the freshly encoded blob is empty (missing root, or a
root with no regular files), `saveSessionFolderToDB` leaves the store
untouched, and a subsequent `loadSessionFolderFromDB` behaves exactly as
it would against the prior store — in particular a previously stored
non-empty blob is still what Load returns. -/
theorem save_empty_blob_noop (tree : Option FSTree) (store : Option Blob)
    (root : Path) (fs : FS) (h : readDirRecursive tree = []) :
    saveSessionFolderToDB tree store = store
    ∧ loadSessionFolderFromDB root
        (storeQuery (saveSessionFolderToDB tree store)) fs
      = loadSessionFolderFromDB root (storeQuery store) fs := by
  have h1 : saveSessionFolderToDB tree store = store := by
    simp [saveSessionFolderToDB, h]
  exact ⟨h1, by rw [h1]⟩

/-- Witness for C3: a missing session root never clobbers a stored blob. -/
theorem save_empty_blob_noop_witness :
    saveSessionFolderToDB none (some [(["session-default", "creds.json"], "aGk=")])
      = some [(["session-default", "creds.json"], "aGk=")]
    ∧ loadSessionFolderFromDB ["srv", ".wwebjs_auth"]
        (storeQuery (saveSessionFolderToDB none
          (some [(["session-default", "creds.json"], "aGk=")]))) (fun _ => none)
      = loadSessionFolderFromDB ["srv", ".wwebjs_auth"]
        (storeQuery (some [(["session-default", "creds.json"], "aGk=")]))
        (fun _ => none) :=
  save_empty_blob_noop none (some [(["session-default", "creds.json"], "aGk=")])
    ["srv", ".wwebjs_auth"] (fun _ => none) rfl

/-- Claim C4 (counterexample): restoring the two-entry blob
`{"a.txt": "aGk=", "b.txt": "aGk="}` when the write of `a.txt` fails
leaves `b.txt` unwritten — the remaining entries are NOT still written,
because `writeFilesFromMap` has no per-file catch and the exception
aborts the whole loop. -/
theorem decode_failure_aborts_rest_cex :
    (writeFilesFromMapE [] (fun pth => pth == ["a.txt"])
        (.obj [(["a.txt"], "aGk="), (["b.txt"], "aGk=")])
        (fun _ => none)).1 ["b.txt"] = none := by
  decide

/-- Claim C4 as amended: a filesystem failure while restoring one file
aborts the restore pass at that file — every entry written before it is
kept, the failing entry and every entry after it are not written, and the
error escapes `writeFilesFromMap` (to be caught by its caller). -/
theorem decode_failure_stops_at_failing_file (root : Path)
    (fails : Path → Bool) (m1 m2 : Blob) (k : Path) (v : String) (fs : FS)
    (h1 : ∀ e ∈ m1, fails (resolveComps root e.1) = false)
    (hk : fails (resolveComps root k) = true) :
    writeFilesFromMapE root fails (.obj (m1 ++ (k, v) :: m2)) fs
      = (writeFold root m1 fs, false) :=
  match m1 with
  | [] => by
      show writeFoldE root fails ((k, v) :: m2) fs = (fs, false)
      simp [writeFoldE, hk]
  | (k1, v1) :: m1' => by
      have hk1 : fails (resolveComps root k1) = false := h1 (k1, v1) (by simp)
      have ih := decode_failure_stops_at_failing_file root fails m1' m2 k v
        (fsWrite fs (resolveComps root k1) (decodeBase64 v1.toList))
        (fun e he => h1 e (by simp [he])) hk
      show writeFoldE root fails (((k1, v1) :: m1') ++ (k, v) :: m2) fs
        = (writeFold root ((k1, v1) :: m1') fs, false)
      rw [List.cons_append]
      have hstep : writeFoldE root fails ((k1, v1) :: (m1' ++ (k, v) :: m2)) fs
          = writeFoldE root fails (m1' ++ (k, v) :: m2)
              (fsWrite fs (resolveComps root k1) (decodeBase64 v1.toList)) := by
        simp [writeFoldE, hk1]
      rw [hstep]
      exact ih

/-- Witness for the amended C4: first entry succeeds, second fails, third
is skipped; the run stops with the error flag set and only the first
entry written. -/
theorem decode_failure_stops_witness :
    writeFilesFromMapE [] (fun pth => pth == ["sess", "bad"])
      (.obj ([(["sess", "ok"], "aGk=")]
        ++ (["sess", "bad"], "aGk=") :: [(["sess", "late"], "aGk=")]))
      (fun _ => none)
      = (writeFold [] [(["sess", "ok"], "aGk=")] (fun _ => none), false) :=
  decode_failure_stops_at_failing_file [] (fun pth => pth == ["sess", "bad"])
    [(["sess", "ok"], "aGk=")] [(["sess", "late"], "aGk=")]
    ["sess", "bad"] "aGk=" (fun _ => none) (by decide) (by decide)

/-- Claim C5: `writeFilesFromMap` never deletes or modifies a local file
whose path is not (the resolution of) a key of the incoming blob; in the
claim's scenario, with `a.txt` present locally and absent from the blob
and `b.txt` present in the blob, after decoding both files exist —
`a.txt` with its original content and `b.txt` with the decoded content. -/
theorem decode_nondestructive (root q : Path) (m : Blob) (fs : FS)
    (hq : ∀ e ∈ m, resolveComps root e.1 ≠ q)
    (ca cb : List Nat) (hca : fs (root ++ ["a.txt"]) = some ca)
    (hcb : ∀ b ∈ cb, b < 256) :
    writeFilesFromMap root (.obj m) fs q = fs q
    ∧ writeFilesFromMap root (.obj [(["b.txt"], (⟨encodeBase64 cb⟩ : String))])
        fs (root ++ ["a.txt"]) = some ca
    ∧ writeFilesFromMap root (.obj [(["b.txt"], (⟨encodeBase64 cb⟩ : String))])
        fs (root ++ ["b.txt"]) = some cb := by
  have hb : resolveComps root ["b.txt"] = root ++ ["b.txt"] :=
    resolveComps_valid _ _ (by decide)
  have hne : root ++ ["b.txt"] ≠ root ++ ["a.txt"] := by
    intro hEq
    have h2 := List.append_cancel_left hEq
    simp at h2
  refine ⟨writeFold_frame root m fs q hq, ?_, ?_⟩
  · have hfr : ∀ e ∈ [((["b.txt"] : Path), (⟨encodeBase64 cb⟩ : String))],
        resolveComps root e.1 ≠ root ++ ["a.txt"] := by
      intro e he
      rw [List.mem_singleton] at he
      rw [he]
      show resolveComps root ["b.txt"] ≠ root ++ ["a.txt"]
      rw [hb]
      exact hne
    show writeFold root [(["b.txt"], (⟨encodeBase64 cb⟩ : String))] fs
        (root ++ ["a.txt"]) = some ca
    rw [writeFold_frame root _ fs _ hfr]
    exact hca
  · show (fsWrite fs (resolveComps root ["b.txt"])
        (decodeBase64 (encodeBase64 cb))) (root ++ ["b.txt"]) = some cb
    rw [hb]
    simp [fsWrite, decode_encode cb hcb]

/-- Witness for C5 at a concrete root, filesystem and pair of files. -/
theorem decode_nondestructive_witness :
    writeFilesFromMap ["srv"] (.obj [(["b.txt"], "aGk=")])
        (fun pth => if pth = ["srv", "a.txt"] then some [97] else none)
        ["srv", "a.txt"]
      = (fun pth => if pth = ["srv", "a.txt"] then some [97] else none)
          (["srv", "a.txt"] : Path)
    ∧ writeFilesFromMap ["srv"] (.obj [(["b.txt"],
          (⟨encodeBase64 [104, 105]⟩ : String))])
        (fun pth => if pth = ["srv", "a.txt"] then some [97] else none)
        (["srv"] ++ ["a.txt"]) = some [97]
    ∧ writeFilesFromMap ["srv"] (.obj [(["b.txt"],
          (⟨encodeBase64 [104, 105]⟩ : String))])
        (fun pth => if pth = ["srv", "a.txt"] then some [97] else none)
        (["srv"] ++ ["b.txt"]) = some [104, 105] := by
  have h := decode_nondestructive ["srv"] ["srv", "a.txt"]
    [(["b.txt"], "aGk=")]
    (fun pth => if pth = ["srv", "a.txt"] then some [97] else none)
    (by decide) [97] [104, 105] (by decide) (by decide)
  exact h

/-- Claim C6: `loadSessionFolderFromDB` treats the PostgREST "no rows"
error `PGRST116` as a normal absent record — local state untouched, no
restore, no error surfaced — while any other fetch error is logged and
likewise returns with local state untouched instead of crashing
startup. -/
theorem load_distinguishes_not_found (root : Path) (fs : FS) :
    loadSessionFolderFromDB root ⟨none, some ⟨"PGRST116"⟩⟩ fs
      = (fs, .absent)
    ∧ ∀ e : SupaError, e.code ≠ "PGRST116" →
        loadSessionFolderFromDB root ⟨none, some e⟩ fs
          = (fs, .fetchError) := by
  constructor
  · simp [loadSessionFolderFromDB, loadData]
  · intro e he
    simp [loadSessionFolderFromDB, he]

/-- Witness for C6: absent record versus a genuine fetch error. -/
theorem load_distinguishes_not_found_witness :
    loadSessionFolderFromDB ["srv"] ⟨none, some ⟨"PGRST116"⟩⟩ (fun _ => none)
      = ((fun _ => none : FS), .absent)
    ∧ loadSessionFolderFromDB ["srv"] ⟨none, some ⟨"PGRST301"⟩⟩ (fun _ => none)
      = ((fun _ => none : FS), .fetchError) :=
  ⟨(load_distinguishes_not_found ["srv"] (fun _ => none)).1,
   (load_distinguishes_not_found ["srv"] (fun _ => none)).2 ⟨"PGRST301"⟩
     (by decide)⟩

/-- Claim C7 (counterexample): the invariant "`qr_code` is non-null only
while `status = waiting_scan`" does NOT hold for every event sequence:
after `qr` followed directly by `disconnected`, the `disconnected` handler
updates only the `status` column, leaving the stale QR code in place, so
the row holds a non-null `qr_code` with `status = "disconnected"`. -/
theorem qr_invariant_cex :
    ¬ (∀ evs : List WEvent, ∀ r : StatusRecord,
        (runEvents initState evs).statusRow = some r →
        r.qr_code ≠ none → r.status = "waiting_scan") := by
  intro hinv
  have h := hinv [.qr "QR1", .disconnected "LOGOUT"]
    ⟨some "QR1", "disconnected"⟩ rfl (by simp)
  exact absurd h (by decide)

/-- Claim C7 as amended: for the event sequence
`qr → authenticated → ready → disconnected` the status row moves through
`waiting_scan → connected → ready → disconnected` in that order, with
`qr_code` non-null only at the `waiting_scan` stage; for general
sequences the invariant can fail, because the `ready` and `disconnected`
handlers leave `qr_code` unchanged (see the counterexample). -/
theorem lifecycle_sequence_trace (q reason : String) :
    (runEvents initState [.qr q]).statusRow
      = some ⟨some q, "waiting_scan"⟩
    ∧ (runEvents initState [.qr q, .authenticated]).statusRow
      = some ⟨none, "connected"⟩
    ∧ (runEvents initState [.qr q, .authenticated, .ready]).statusRow
      = some ⟨none, "ready"⟩
    ∧ (runEvents initState [.qr q, .authenticated, .ready,
        .disconnected reason]).statusRow = some ⟨none, "disconnected"⟩ :=
  ⟨rfl, rfl, rfl, rfl⟩

/-- Claim C8: a `POST /send-message` while not ready gets a 503
"not connected" response and `client.sendMessage` is never invoked; while
ready with a string `to`, the send is delegated to the protocol client
with the normalized chat id and the request message. -/
theorem send_gating (toField : Option String) (message : String)
    (send : SendResult) :
    sendMessageHandler false toField message send
      = (.failure 503 "WhatsApp não conectado", none)
    ∧ ∀ t : String, toField = some t →
        (sendMessageHandler true toField message send).2
          = some (normalizeChatId t, message) := by
  constructor
  · rfl
  · intro t ht
    subst ht
    cases send <;> rfl

/-- Witness for C8 at a concrete request. -/
theorem send_gating_witness :
    sendMessageHandler false (some "5511999") "hello" .delivered
      = (.failure 503 "WhatsApp não conectado", none)
    ∧ (sendMessageHandler true (some "5511999") "hello" .delivered).2
      = some (normalizeChatId "5511999", "hello") :=
  ⟨(send_gating (some "5511999") "hello" .delivered).1,
   (send_gating (some "5511999") "hello" .delivered).2 "5511999" rfl⟩

/-- Claim C9: `writeFilesFromMap` given `null`/`undefined` or a non-object
value returns through its guard without writing anything: the filesystem
is returned entirely unchanged. -/
theorem decode_non_object_noop (root : Path) (fs : FS) :
    writeFilesFromMap root .nullish fs = fs
    ∧ ∀ t : Bool, writeFilesFromMap root (.primitive t) fs = fs :=
  ⟨rfl, fun _ => rfl⟩

/-- Claim C10: a `POST /send-message` in the ready state whose body has no
string `to` field throws a TypeError at `to.includes`, which the handler's
catch converts into an HTTP 500 JSON response with an `error` field; the
process does not crash and `client.sendMessage` is never invoked. -/
theorem send_missing_to_returns_500 (message : String) (send : SendResult) :
    sendMessageHandler true none message send
      = (.failure 500 "Cannot read properties of undefined (reading includes)",
         none) :=
  rfl

end WhatsappServer
